import Mathlib

set_option maxHeartbeats 1000000

namespace QLParse

/-! Shallow embedding of the qlbridge lexical scanner (`lexer.go`, package
`qlparse`).  The input buffer is modelled as a list of Unicode code points;
`pos`, `start` and `width` are signed integers, as the Go fields are.  The
Go token channel (capacity 1) is modelled as an unbounded FIFO list of
emitted tokens; a Go state function emitting more than one token per
invocation would block on the real channel, and shows up here as more than
one element appended in a single step.  Character-class predicates from the
Go standard library (`unicode.IsSpace`, `unicode.IsLetter`,
`unicode.IsDigit`, `unicode.ToLower`, `unicode.ToUpper`) are modelled on
their Latin-1/ASCII fragment, which covers every input considered in the
theorems below.  Go state functions are defunctionalized into the `StateId`
inductive with a `step` interpreter; loops that the Go code can fail to
exit are given explicit fuel, and running out of fuel is reported as a
distinguished result, so divergence of the source is provable as
"no amount of fuel suffices". -/

/-- Latin-1 fragment of Go `unicode.IsSpace`. -/
def unicodeIsSpace (c : Char) : Bool :=
  c = ' ' ∨ c = '\t' ∨ c = '\n' ∨ c = Char.ofNat 11 ∨ c = Char.ofNat 12 ∨
    c = '\r' ∨ c = Char.ofNat 133 ∨ c = Char.ofNat 160

/-- ASCII fragment of Go `unicode.IsLetter`. -/
def unicodeIsLetter (c : Char) : Bool :=
  ('a' ≤ c ∧ c ≤ 'z') ∨ ('A' ≤ c ∧ c ≤ 'Z')

/-- ASCII fragment of Go `unicode.IsDigit`. -/
def unicodeIsDigit (c : Char) : Bool :=
  '0' ≤ c ∧ c ≤ '9'

/-- ASCII fragment of Go `unicode.ToLower`. -/
def unicodeToLower (c : Char) : Char :=
  if 'A' ≤ c ∧ c ≤ 'Z' then Char.ofNat (c.toNat + 32) else c

/-- ASCII fragment of Go `unicode.ToUpper`. -/
def unicodeToUpper (c : Char) : Char :=
  if 'a' ≤ c ∧ c ≤ 'z' then Char.ofNat (c.toNat - 32) else c

/-- The single-quote character, used pervasively by the lexer. -/
def squote : Char := '\''

/-- The double-quote character. -/
def dquote : Char := '"'

/-- `strings.ToUpper` on ASCII. -/
def strToUpper (s : String) : String := String.mk (s.toList.map unicodeToUpper)

/-- `strings.ToLower` on ASCII. -/
def strToLower (s : String) : String := String.mk (s.toList.map unicodeToLower)

/-- Go `isAlNum`: alphabetic, digit, or underscore. -/
def isAlNum (r : Char) : Bool := r = '_' ∨ unicodeIsLetter r ∨ unicodeIsDigit r

/-- Go `isAlpha`: alphabetic, underscore or period. -/
def isAlpha (r : Char) : Bool := r = '_' ∨ unicodeIsLetter r ∨ r = '.'

/-- Go `isAlNumOrPeriod`: alphabetic, digit, underscore, or period. -/
def isAlNumOrPeriod (r : Char) : Bool :=
  r = '_' ∨ unicodeIsLetter r ∨ unicodeIsDigit r ∨ r = '.'

/-- Go `isDigit`. -/
def isDigit (r : Char) : Bool := '0' ≤ r ∧ r ≤ '9'

/-- Go `isWhiteSpace`: the whitespace set defined by the source itself. -/
def isWhiteSpace (r : Char) : Bool :=
  r = '\r' ∨ r = '\n' ∨ r = '\t' ∨ r = ' '

/-- Go global `IDENTITY_CHARS = "_."`. -/
def IDENTITY_CHARS : String := "_."

/-- Go global `IDENTITY_LAX_CHARS = "_./ "`. -/
def IDENTITY_LAX_CHARS : String := "_./ "

/-- Go `isIdentifierRune`: letter, digit, or a member of `IDENTITY_CHARS`. -/
def isIdentifierRune (r : Char) : Bool :=
  unicodeIsLetter r ∨ unicodeIsDigit r ∨ IDENTITY_CHARS.toList.contains r

/-- Go `isLaxIdentifierRune`: letter, digit, or a member of `IDENTITY_LAX_CHARS`. -/
def isLaxIdentifierRune (r : Char) : Bool :=
  unicodeIsLetter r ∨ unicodeIsDigit r ∨ IDENTITY_LAX_CHARS.toList.contains r

/- Option-lifted character classes.  Go represents end of input by the
rune sentinel `eof = -1`, modelled here as `none`; all the predicates
below evaluate to `false` on the sentinel in Go, except where noted at the
use site. -/

/-- `unicode.IsLetter` applied to a possibly-eof rune. -/
def optIsLetter : Option Char → Bool
  | some c => unicodeIsLetter c
  | none => false

/-- `isDigit` applied to a possibly-eof rune. -/
def optIsDigit : Option Char → Bool
  | some c => isDigit c
  | none => false

/-- `isAlpha` applied to a possibly-eof rune. -/
def optIsAlpha : Option Char → Bool
  | some c => isAlpha c
  | none => false

/-- `isAlNum` applied to a possibly-eof rune. -/
def optIsAlNum : Option Char → Bool
  | some c => isAlNum c
  | none => false

/-- `isWhiteSpace` applied to a possibly-eof rune (false on eof). -/
def isWhiteSpaceO : Option Char → Bool
  | some c => isWhiteSpace c
  | none => false

/-- `unicode.ToLower` applied to a possibly-eof rune (eof maps to eof). -/
def optToLower : Option Char → Option Char
  | some c => some (unicodeToLower c)
  | none => none

-- Token model ---------------------------------------------------------------

/-- `TokenType` from lexer.go, all constructors in source order. -/
inductive TokenType where
  | TokenNil
  | TokenEOF
  | TokenError
  | TokenText
  | TokenComment
  | TokenCommentStart
  | TokenCommentEnd
  | TokenCommentSingleLine
  | TokenCommentHash
  | TokenBool
  | TokenFloat
  | TokenInteger
  | TokenString
  | TokenList
  | TokenMap
  | TokenStar
  | TokenEqual
  | TokenNE
  | TokenGE
  | TokenLE
  | TokenGT
  | TokenLT
  | TokenLeftParenthesis
  | TokenRightParenthesis
  | TokenComma
  | TokenLogicOr
  | TokenLogicAnd
  | TokenIN
  | TokenLike
  | TokenNegate
  | TokenEOS
  | TokenUdfExpr
  | TokenTable
  | TokenColumn
  | TokenInsert
  | TokenInto
  | TokenUpdate
  | TokenSet
  | TokenAs
  | TokenDelete
  | TokenFrom
  | TokenSelect
  | TokenSkip
  | TokenWhere
  | TokenGroupBy
  | TokenValues
  | TokenValue
  | TokenValueWithSingleQuote
  | TokenKey
  | TokenTag
  deriving DecidableEq, Repr

/-- A lexical token: type and value, as in the Go `Token` struct. -/
structure Token where
  T : TokenType
  V : String
  deriving DecidableEq, Repr

open TokenType

/-- The Go `TokenNameMap`; token types absent from the map give `none`. -/
def tokenNameMap : TokenType → Option String
  | TokenEOF => some ("EOF")
  | TokenError => some ("Error")
  | TokenComment => some ("Comment")
  | TokenCommentStart => some ("/*")
  | TokenCommentEnd => some ("*/")
  | TokenCommentHash => some ("#")
  | TokenCommentSingleLine => some ("--")
  | TokenText => some ("Text")
  | TokenBool => some ("Bool")
  | TokenFloat => some ("Float")
  | TokenInteger => some ("Integer")
  | TokenString => some ("String")
  | TokenList => some ("List")
  | TokenMap => some ("Map")
  | TokenStar => some ("Star")
  | TokenEqual => some ("Equal")
  | TokenNE => some ("NE")
  | TokenGE => some ("GE")
  | TokenLE => some ("LE")
  | TokenGT => some ("GT")
  | TokenLT => some ("LT")
  | TokenLeftParenthesis => some ("LeftParenthesis")
  | TokenRightParenthesis => some ("RightParenthesis")
  | TokenComma => some ("Comma")
  | TokenLogicOr => some ("Or")
  | TokenLogicAnd => some ("And")
  | TokenIN => some ("IN")
  | TokenLike => some ("LIKE")
  | TokenNegate => some ("NOT")
  | TokenUdfExpr => some ("EXPR")
  | TokenEOS => some ("EndOfStatement")
  | TokenTable => some ("table")
  | TokenColumn => some ("column")
  | TokenInsert => some ("insert")
  | TokenInto => some ("into")
  | TokenUpdate => some ("update")
  | TokenSet => some ("set")
  | TokenAs => some ("as")
  | TokenDelete => some ("delete")
  | TokenFrom => some ("from")
  | TokenSelect => some ("select")
  | TokenWhere => some ("where")
  | TokenGroupBy => some ("group by")
  | TokenValues => some ("values")
  | TokenValue => some ("value")
  | TokenValueWithSingleQuote => some ("valueWithSingleQuote")
  | _ => none

/-- Go `TokenType.String()`: the map entry, or "not implemented". -/
def tokenTypeString (t : TokenType) : String :=
  match tokenNameMap t with
  | some s => s
  | none => "not implemented"

-- Defunctionalized state functions -------------------------------------------

/-- Names for the Go `StateFn` values that ever flow through `l.state`,
the continuation stack, or a state-function return value.
`fromKeyword` is the single instantiation `makeStateFnKeyword(TokenFrom,
lexSqlFromTable)` pushed by `lexStatement`; `valueState` is the free
function `lexValue` (the wrapper around the method `(*Lexer).lexValue`). -/
inductive StateId where
  | statement
  | columnOrComma
  | expressionOrIdentity
  | expression
  | valueState
  | fromKeyword
  | sqlFromTable
  | sqlWhere
  | sqlWhereColumn
  | sqlWhereColumnExpr
  | sqlWhereCommaOrLogicOrNext
  | groupBy
  | sqlGroupByColumns
  | sqlEndOfStatement
  deriving DecidableEq, Repr

-- Lexer state ----------------------------------------------------------------

/-- The Go `Lexer` struct.  The unused fields `emitter`, `doubleDelim` and
`dialect` are omitted (`dialect` is stored by `NewLexer` but never read in
lexer.go).  The token channel of capacity 1 is modelled as the FIFO list
`tokens`.  The Go stack is a slice pushed at the end and popped at the end;
here the head of `stack` is the top. -/
structure Lexer where
  input : List Char
  pos : Int
  start : Int
  width : Int
  state : Option StateId
  stack : List (String × StateId)
  tokens : List Token
  deriving DecidableEq, Repr

/-- The suffix of the input from the current read position. -/
def Lexer.remaining (l : Lexer) : List Char := l.input.drop l.pos.toNat

/-- Go `(*Lexer).next`: decode the rune at `pos` (here: one code point),
or return the eof sentinel with `width = 0` when the buffer is exhausted.
The Go bound check `l.pos >= len(l.input)` is expressed through the
`remaining` suffix. -/
def Lexer.next (l : Lexer) : Option Char × Lexer :=
  match l.remaining with
  | [] => (none, { l with width := 0 })
  | c :: _ => (some c, { l with pos := l.pos + 1, width := 1 })

/-- Go `(*Lexer).backup`: steps back one rune; it blindly subtracts the
recorded width, with no guard against repeated invocation. -/
def Lexer.backup (l : Lexer) : Lexer := { l with pos := l.pos - l.width }

/-- Go `(*Lexer).peek` (`next` followed by `backup`); the only state the Go
version changes is the dead `width` bookkeeping, so it is modelled as a
pure read. -/
def Lexer.peek (l : Lexer) : Option Char := (l.next).1

/-- Go `(*Lexer).peekX`: up to `x` code points from the current position. -/
def Lexer.peekX (l : Lexer) (x : Nat) : String := String.mk (l.remaining.take x)

/-- Go `(*Lexer).peekWord`: maximal run of non-space alphanumeric-or-period
code points from the current position, without consuming. -/
def Lexer.peekWord (l : Lexer) : String :=
  String.mk (l.remaining.takeWhile (fun r => ¬ unicodeIsSpace r ∧ isAlNumOrPeriod r))

/-- Go `(*Lexer).isEnd`: `l.pos >= len(l.input)`. -/
def Lexer.isEnd (l : Lexer) : Bool := l.remaining.isEmpty

/-- The current lexeme `l.input[l.start:l.pos]`. -/
def Lexer.lexeme (l : Lexer) : String :=
  String.mk ((l.input.drop l.start.toNat).take (l.pos - l.start).toNat)

/-- Go `(*Lexer).emit`: append the token to the channel and advance `start`. -/
def Lexer.emit (l : Lexer) (t : TokenType) : Lexer :=
  { l with tokens := l.tokens ++ [{ T := t, V := l.lexeme }], start := l.pos }

/-- Go `(*Lexer).ignore`. -/
def Lexer.ignore (l : Lexer) : Lexer := { l with start := l.pos }

/-- Length of the maximal prefix satisfying `p`; drives the model of the
Go loops of shape `for r := l.next(); p(r); r = l.next() {}` whose
predicate rejects the eof sentinel. -/
def countWhile (p : Char → Bool) : List Char → Nat
  | [] => 0
  | c :: cs => if p c then countWhile p cs + 1 else 0

/-- Runs `l.next()` repeatedly while the returned rune satisfies `p`
(which the eof sentinel never does); returns the first failing read,
already consumed, exactly as the Go loops leave the lexer. -/
def Lexer.nextWhile (l : Lexer) (p : Char → Bool) : Option Char × Lexer :=
  Lexer.next { l with pos := l.pos + (countWhile p l.remaining : Int) }

/-- Go `(*Lexer).skipWhiteSpaces`: read runes while `unicode.IsSpace`,
back up over the failing read, and `ignore` the skipped prefix. -/
def Lexer.skipWhiteSpaces (l : Lexer) : Lexer :=
  (((l.nextWhile unicodeIsSpace).2).backup).ignore

/-- `strings.IndexRune(valid, r) >= 0` for a possibly-eof rune. -/
def indexRuneFound (valid : String) (r : Option Char) : Bool :=
  match r with
  | some c => valid.toList.contains c
  | none => false

/-- Go `(*Lexer).accept`. -/
def Lexer.accept (l : Lexer) (valid : String) : Bool × Lexer :=
  match l.next with
  | (r, l') => if indexRuneFound valid r then (true, l') else (false, l'.backup)

/-- Go `(*Lexer).acceptRun`: consume a maximal run from `valid`, back up
over the failing read, and report whether the position moved. -/
def Lexer.acceptRun (l : Lexer) (valid : String) : Bool × Lexer :=
  match l.nextWhile (fun c => valid.toList.contains c) with
  | (_, l') => (decide ((l'.backup).pos > l.pos), l'.backup)

/-- Go `(*Lexer).current`: returns the lexeme and advances `start`. -/
def Lexer.current (l : Lexer) : String × Lexer :=
  (l.lexeme, { l with start := l.pos })

/-- Go `(*Lexer).skipX`. -/
def Lexer.skipX (l : Lexer) : Nat → Lexer
  | 0 => l
  | n + 1 => Lexer.skipX (l.next).2 n

/-- Go `(*Lexer).backupN` does not exist; this models the rollback loop
`for ; i > 0; i-- { l.backup() }` inside `tryMatch`. -/
def Lexer.backupN (l : Lexer) : Nat → Lexer
  | 0 => l
  | n + 1 => Lexer.backupN l.backup n

/-- Go `(*Lexer).errorf`: emit an error token carrying the formatted
message (without touching `start`) and terminate the scan. -/
def Lexer.errorf (l : Lexer) (msg : String) : Lexer :=
  { l with tokens := l.tokens ++ [{ T := TokenError, V := msg }] }

/-- Go `(*Lexer).errorToken`: despite its message argument, the Go body
discards the message and emits `TokenError` with the current lexeme as
value (the `fmt.Sprintf` call is commented out in the source). -/
def Lexer.errorToken (l : Lexer) (_msg : String) : Lexer :=
  l.emit TokenError

/-- Go `(*Lexer).push`. -/
def Lexer.push (l : Lexer) (name : String) (s : StateId) : Lexer :=
  { l with stack := (name, s) :: l.stack }

/-- Go `(*Lexer).pop`: popping an empty stack emits the BUG error token
via `errorf` and yields the nil state. -/
def Lexer.pop (l : Lexer) : Option StateId × Lexer :=
  match l.stack with
  | [] => (none, l.errorf ("BUG in lexer: no states to pop."))
  | top :: rest => (some top.2, { l with stack := rest })

/-- The rune-comparison loop of Go `(*Lexer).match`: each expected rune is
compared against the next input rune up to `unicode.ToLower`; consumed
input is not rolled back on failure.  After the word, the next rune must
be whitespace. -/
def matchChars (l : Lexer) : List Char → Nat → Bool × Lexer
  | [], _ => (isWhiteSpaceO l.peek, l)
  | c :: cs, skip =>
    if skip > 0 then matchChars l cs (skip - 1)
    else
      match l.next with
      | (nr, l') =>
        if nr = some c ∨ optToLower nr = some c then matchChars l' cs skip
        else (false, l')

/-- Go `(*Lexer).match`. -/
def Lexer.matchWord (l : Lexer) (matchTo : String) (skip : Nat) : Bool × Lexer :=
  matchChars l matchTo.toList skip

/-- The loop of Go `(*Lexer).tryMatch`: on a case-insensitive mismatch,
call `backup` once per rune read so far (each call subtracts the width of
the last read, which is all the information `backup` has). -/
def tryMatchChars (l : Lexer) (i : Nat) : List Char → Bool × Lexer
  | [] => (true, l)
  | c :: cs =>
    match l.next with
    | (nr, l') =>
      if optToLower nr = some c then tryMatchChars l' (i + 1) cs
      else (false, l'.backupN (i + 1))

/-- Go `(*Lexer).tryMatch`. -/
def Lexer.tryMatch (l : Lexer) (matchTo : String) : Bool × Lexer :=
  tryMatchChars l 0 matchTo.toList

/-- The index-carrying scan loop of Go `(*Lexer).isExpr`. -/
def isExprScan : List Char → Nat → Bool
  | [], _ => false
  | r :: rest, i =>
    if r = '(' ∧ i > 0 then true
    else if unicodeIsSpace r then false
    else if ¬ isAlNumOrPeriod r then false
    else isExprScan rest (i + 1)

/-- Go `(*Lexer).isExpr` (non-consuming). -/
def Lexer.isExpr (l : Lexer) : Bool :=
  if l.peek = some squote then false
  else if optIsDigit l.peek then false
  else isExprScan l.remaining 0

/-- Go `(*Lexer).isNextKeyword`: is the next word `FROM`? -/
def Lexer.isNextKeyword (l : Lexer) : Bool :=
  strToUpper l.peekWord = "FROM"

/-- Go `(*Lexer).isIdentity` (non-consuming). -/
def Lexer.isIdentity (l : Lexer) : Bool :=
  if l.peek = some squote then false
  else if optIsDigit l.peek then false
  else if optIsAlpha l.peek then true
  else false

/-- Go `(*Lexer).lexMatch`: on success emit and continue with `fn`; on
failure the argument `"Unexpected token:" + l.current()` is evaluated
first (mutating `start`), then `errorToken` emits and terminates. -/
def Lexer.lexMatch (l : Lexer) (typ : TokenType) (skip : Nat) (fn : Option StateId) :
    Option StateId × Lexer :=
  match l.matchWord (tokenTypeString typ) skip with
  | (true, l') => (fn, l'.emit typ)
  | (false, l') =>
    match l'.current with
    | (cur, l'') => (none, l''.errorToken ("Unexpected token:" ++ cur))

/-- Go `(*Lexer).lexIfElseMatch`. -/
def Lexer.lexIfElseMatch (l : Lexer) (typ : TokenType)
    (matchState noMatchState : Option StateId) : Option StateId × Lexer :=
  match (l.skipWhiteSpaces).tryMatch (tokenTypeString typ) with
  | (true, l') => (matchState, l'.emit typ)
  | (false, l') => (noMatchState, l')

-- State functions -------------------------------------------------------------

/-- Result of running one Go state function: the returned next state and
the mutated lexer, or a Go runtime panic, or fuel exhaustion (the Go loop
in question does not terminate). -/
inductive StepRes where
  | ok : Option StateId → Lexer → StepRes
  | panicked : String → StepRes
  | outOfFuel : StepRes
  deriving DecidableEq, Repr

/-- Wrap a plain (panic- and loop-free) state-function result. -/
def pairRes (p : Option StateId × Lexer) : StepRes := StepRes.ok p.1 p.2

/-- Go `(*Lexer).lexIdentifier`: bracket-quoted, single-quote-quoted, or
bare identifiers.  Early `errorToken` returns yield the nil state. -/
def Lexer.lexIdentifier (l0 : Lexer) (typ : TokenType) (nextFn : Option StateId) :
    Option StateId × Lexer :=
  let l := l0.skipWhiteSpaces
  let (firstChar, l) := l.next
  if firstChar = some '[' ∨ firstChar = some squote then
    let l := l.ignore
    let (nextChar, l) := l.next
    if ¬ optIsLetter nextChar then
      (none, l.errorToken ("identifier must begin with a letter"))
    else
      let (nextChar, l) := l.nextWhile isLaxIdentifierRune
      if (firstChar = some '[' ∧ nextChar = some ']') ∨
          (firstChar = some squote ∧ nextChar = some squote) then
        let l := l.backup
        let l := l.emit typ
        let (_, l) := l.next
        (nextFn, l.ignore)
      else
        (none, l.errorToken ("unexpected character in identifier"))
  else
    if ¬ optIsLetter firstChar then
      (none, l.errorToken ("identifier must begin with a letter"))
    else
      let (_, l) := l.nextWhile isIdentifierRune
      let l := l.backup
      (nextFn, l.emit typ)

/-- One iteration bound for the inner loop of the quoted branch of Go
`(*Lexer).lexValue`.  The end-of-input guard of the loop tests `rune == 0`,
but `next` returns the eof sentinel (Go: -1, here: `none`), which is
neither a quote nor 0, so at end of input the loop spins; that shows up
here as `none` for every fuel. -/
def lexValueQuoted : Nat → TokenType → Lexer → Option (Option StateId × Lexer)
  | 0, _, _ => none
  | fuel + 1, typ, l =>
    match l.next with
    | (r, l) =>
      if r = some squote ∨ r = some dquote then
        if ¬ l.isEnd then
          match l.next with
          | (r2, l) =>
            if r2 = some squote ∨ r2 = some dquote then
              lexValueQuoted fuel TokenValueWithSingleQuote l
            else
              let l := (l.backup).backup
              let l := l.emit typ
              let (_, l) := l.next
              some (none, l.ignore)
        else
          let l := l.backup
          let l := l.emit typ
          let (_, l) := l.next
          some (none, l)
      else if r = some (Char.ofNat 0) then
        some (none, l.errorToken ("string value was not delimited"))
      else
        lexValueQuoted fuel typ l

/-- The continuation condition of the unquoted-value loop in Go
`(*Lexer).lexValue`.  Applied to the eof sentinel (-1), all three Go
tests pass, so the loop keeps reading at end of input. -/
def unquotedValueCont : Option Char → Bool
  | some c => ¬ isWhiteSpace c ∧ c ≠ ',' ∧ c ≠ ')'
  | none => true

/-- The unquoted-value loop of Go `(*Lexer).lexValue`, with fuel. -/
def lexValueUnquoted : Nat → TokenType → Lexer → Option (Option StateId × Lexer)
  | 0, _, _ => none
  | fuel + 1, typ, l =>
    match l.next with
    | (r, l) =>
      if unquotedValueCont r then lexValueUnquoted fuel typ l
      else some (none, (l.backup).emit typ)

/-- Go method `(*Lexer).lexValue`. -/
def Lexer.lexValue (fuel : Nat) (l0 : Lexer) : Option (Option StateId × Lexer) :=
  let l := l0.skipWhiteSpaces
  if l.isEnd then some (none, l.errorToken ("expected value but got EOF"))
  else
    let (r, l) := l.next
    if r = some ')' then some (none, l)
    else if r = some squote ∨ r = some dquote then
      lexValueQuoted fuel TokenValue l.ignore
    else
      lexValueUnquoted fuel TokenValue l

/-- Go `lexExpressionIdentifier` (always called with `nextFn = lexExpression`). -/
def lexExpressionIdentifierF (l0 : Lexer) (nextFn : Option StateId) :
    Option StateId × Lexer :=
  let l := l0.skipWhiteSpaces
  let (firstChar, l) := l.next
  if ¬ optIsLetter firstChar then
    (none, l.errorToken ("identifier must begin with a letter"))
  else
    let (_, l) := l.nextWhile isIdentifierRune
    (nextFn, (l.backup).emit TokenUdfExpr)

/-- Go `lexExpression`: requires an opening parenthesis. -/
def lexExpressionF (l0 : Lexer) : Option StateId × Lexer :=
  let (firstChar, l) := l0.next
  if firstChar ≠ some '(' then
    (none, l.errorToken ("expression must begin with a paren"))
  else
    (some StateId.columnOrComma, l.emit TokenLeftParenthesis)

/-- Go `lexExpressionOrIdentity`: expression, identity, or fall back to
value lexing.  The identity branch discards the state returned by
`lexIdentifier` and returns nil, exactly as the Go body does. -/
def lexExpressionOrIdentityF (fuel : Nat) (l0 : Lexer) : StepRes :=
  let l := l0.skipWhiteSpaces
  if l.isExpr then
    pairRes (lexExpressionIdentifierF l (some StateId.expression))
  else if l.isIdentity then
    match l.lexIdentifier TokenColumn none with
    | (_, l') => StepRes.ok none l'
  else
    match Lexer.lexValue fuel l with
    | none => StepRes.outOfFuel
    | some (fn, l') => StepRes.ok fn l'

/-- `strings.HasPrefix(l.input[l.pos:], s)`. -/
def hasPrefixAt (l : Lexer) (s : String) : Bool :=
  s.toList.isPrefixOf l.remaining

/-- The scan loop of Go `lexMultilineCmt`: consume until `*/`; hitting
end of input is a Go `panic`. -/
def lexMultilineBody : Nat → Lexer → Option (Sum String Lexer)
  | 0, _ => none
  | fuel + 1, l =>
    if hasPrefixAt l ("*/") then some (Sum.inr l)
    else
      match l.next with
      | (r, l') =>
        if r = none then
          some (Sum.inl ("Unexpected end of file inside multiline comment"))
        else lexMultilineBody fuel l'

/-- Go `lexMultilineCmt`. -/
def lexMultilineCmtF (fuel : Nat) (l0 : Lexer) (nextFn : Option StateId) : StepRes :=
  let l := ((l0.next).2.next).2
  match lexMultilineBody fuel l with
  | none => StepRes.outOfFuel
  | some (Sum.inl msg) => StepRes.panicked msg
  | some (Sum.inr l) =>
    let l := ((l.next).2.next).2
    StepRes.ok nextFn (l.emit TokenComment)

/-- The scan loop of Go `lexSingleLineCmt`: consume until newline or eof,
then back up over the terminator. -/
def lexSingleLineBody : Nat → Lexer → Option Lexer
  | 0, _ => none
  | fuel + 1, l =>
    match l.next with
    | (r, l') =>
      if r = some '\n' ∨ r = none then some l'.backup
      else lexSingleLineBody fuel l'

/-- Go `lexSingleLineCmt`. -/
def lexSingleLineCmtF (fuel : Nat) (l0 : Lexer) (nextFn : Option StateId) : StepRes :=
  let (r, l) := l0.next
  let l := if r = some '-' ∨ r = some '/' then (l.next).2 else l
  match lexSingleLineBody fuel l with
  | none => StepRes.outOfFuel
  | some l => StepRes.ok nextFn (l.emit TokenComment)

/-- Go `lexComment` (a helper invoked directly, not via the driver). -/
def lexCommentF (fuel : Nat) (l : Lexer) (nextFn : Option StateId) : StepRes :=
  if hasPrefixAt l ("/*") then lexMultilineCmtF fuel l nextFn
  else if hasPrefixAt l ("//") then lexSingleLineCmtF fuel l nextFn
  else if hasPrefixAt l ("--") then lexSingleLineCmtF fuel l nextFn
  else if hasPrefixAt l ("#") then lexSingleLineCmtF fuel l nextFn
  else StepRes.ok none l

/-- Go `lexStatement`: comments re-enter `lexStatement`; `s`/`S` pushes
the FROM-keyword continuation and matches SELECT; every other leading
character only logs, and control falls through to emitting trailing text
(never reachable: whitespace was just ignored) and `TokenEOF`. -/
def lexStatementF (fuel : Nat) (l0 : Lexer) : StepRes :=
  let l := l0.skipWhiteSpaces
  let r := l.peek
  if r = some '/' ∨ r = some '-' ∨ r = some '#' then
    lexCommentF fuel l (some StateId.statement)
  else if r = some 's' ∨ r = some 'S' then
    let l := l.push ("from keyword") StateId.fromKeyword
    pairRes (l.lexMatch TokenSelect 0 (some StateId.columnOrComma))
  else
    let l := if l.pos > l.start then l.emit TokenText else l
    StepRes.ok none (l.emit TokenEOF)

/-- Go `makeStateFnKeyword(TokenFrom, lexSqlFromTable)` (the body ignores
its tokenType argument and hardcodes `TokenFrom`). -/
def fromKeywordF (l0 : Lexer) : Option StateId × Lexer :=
  (l0.skipWhiteSpaces).lexMatch TokenFrom 0 (some StateId.sqlFromTable)

/-- Go `lexSqlFromTable`. -/
def lexSqlFromTableF (l : Lexer) : Option StateId × Lexer :=
  l.lexIdentifier TokenTable (some StateId.sqlWhere)

/-- Go `lexSqlEndOfStatement`. -/
def lexSqlEndOfStatementF (l0 : Lexer) : Option StateId × Lexer :=
  let l := l0.skipWhiteSpaces
  let (r, l) := l.next
  let l := if r = some ';' then l.emit TokenEOS else l
  if l.isEnd then (none, l)
  else
    match l.current with
    | (cur, l') => (none, l'.errorToken ("Unexpected token:" ++ cur))

/-- Go `lexSqlWhere`. -/
def lexSqlWhereF (l : Lexer) : Option StateId × Lexer :=
  l.lexIfElseMatch TokenWhere (some StateId.sqlWhereColumn) (some StateId.groupBy)

/-- Go `lexSqlWhereColumn`. -/
def lexSqlWhereColumnF (l : Lexer) : Option StateId × Lexer :=
  l.lexIdentifier TokenColumn (some StateId.sqlWhereColumnExpr)

/-- The keyword dispatch shared by the tail of Go
`lexSqlWhereCommaOrLogicOrNext` (reached from the paren cases and from the
default case after one `backup`). -/
def commaOrLogicWord (l : Lexer) : Option StateId × Lexer :=
  let word := strToUpper l.peekWord
  if word = "" then (some StateId.groupBy, l)
  else if word = "OR" then
    (some StateId.sqlWhereColumn, ((l.skipX 2).emit TokenLogicOr))
  else if word = "AND" then
    (some StateId.sqlWhereColumn, ((((l.skipX 3)).backup).emit TokenLogicAnd))
  else
    (some StateId.groupBy, l.backup)

/-- Go `lexSqlWhereCommaOrLogicOrNext`. -/
def lexSqlWhereCommaOrLogicOrNextF (l0 : Lexer) : Option StateId × Lexer :=
  let l := l0.skipWhiteSpaces
  let (r, l) := l.next
  if r = some '(' then
    commaOrLogicWord ((l.emit TokenLeftParenthesis).skipWhiteSpaces)
  else if r = some ')' then
    commaOrLogicWord ((l.emit TokenRightParenthesis).skipWhiteSpaces)
  else if r = some ',' then
    (some StateId.sqlWhereColumn, l.emit TokenComma)
  else
    commaOrLogicWord l.backup

/-- The two pushes performed after the operator switch of Go
`lexSqlWhereColumnExpr` (every path falls through to them except the bare
`!` error return and the `IN` return). -/
def whereExprTail (l : Lexer) : Option StateId × Lexer :=
  let l := l.push ("lexSqlWhereCommaOrLogicOrNext") StateId.sqlWhereCommaOrLogicOrNext
  let l := l.push ("lexValue") StateId.valueState
  (none, l)

/-- Go `lexSqlWhereColumnExpr`: the WHERE comparator/operator scanner.
Faithful to the source: the `>` case emits `TokenGT` even after having
emitted `TokenGE`; the `<` case emits nothing when `=` does not follow;
the bare-`!` case only logs and returns the nil state with no token. -/
def lexSqlWhereColumnExprF (l0 : Lexer) : Option StateId × Lexer :=
  let l := l0.skipWhiteSpaces
  let (r, l) := l.next
  if r = some '!' then
    if l.peek = some '=' then
      let (_, l) := l.next
      whereExprTail (l.emit TokenNE)
    else
      (none, l)
  else if r = some '=' then
    whereExprTail (l.emit TokenEqual)
  else if r = some '>' then
    let l := if l.peek = some '=' then ((l.next).2).emit TokenGE else l
    whereExprTail (l.emit TokenGT)
  else if r = some '<' then
    let l := if l.peek = some '=' then ((l.next).2).emit TokenLE else l
    whereExprTail l
  else
    let l := l.backup
    let word := strToUpper l.peekWord
    if word = "IN" then
      let l := l.skipX 2
      let l := l.emit TokenIN
      let l := l.push ("lexSqlWhereCommaOrLogicOrNext") StateId.sqlWhereCommaOrLogicOrNext
      let l := l.push ("lexColumnOrComma") StateId.columnOrComma
      (none, l)
    else if word = "LIKE" then
      whereExprTail ((l.skipX 4).emit TokenLike)
    else
      whereExprTail l

/-- Go `lexGroupBy`. -/
def lexGroupByF (l : Lexer) : Option StateId × Lexer :=
  l.lexIfElseMatch TokenGroupBy (some StateId.sqlGroupByColumns)
    (some StateId.sqlEndOfStatement)

/-- Go `lexSqlGroupByColumns` (only logs, then hands off). -/
def lexSqlGroupByColumnsF (l : Lexer) : Option StateId × Lexer :=
  (some StateId.columnOrComma, l)

/-- Go `lexColumnOrComma`. -/
def lexColumnOrCommaF (l0 : Lexer) : Option StateId × Lexer :=
  let l := l0.skipWhiteSpaces
  let (r, l) := l.next
  if optToLower r = some 'a' ∧ strToLower (l.peekX 2) = "s " then
    let (_, l) := l.next
    (some StateId.valueState, l.emit TokenAs)
  else if r = some '(' then
    (some StateId.columnOrComma, l.emit TokenLeftParenthesis)
  else if r = some ')' then
    (none, l.emit TokenRightParenthesis)
  else if r = some ',' then
    (some StateId.columnOrComma, l.emit TokenComma)
  else if r = some '*' then
    (none, l.emit TokenStar)
  else
    let l := l.backup
    if l.isNextKeyword then (none, l)
    else
      let l :=
        if l.stack.length < 10 then l.push ("columnorcomma") StateId.columnOrComma
        else l
      (some StateId.expressionOrIdentity, l)

/-- The defunctionalized dispatch: run the named Go state function. -/
def step (fuel : Nat) : StateId → Lexer → StepRes
  | StateId.statement, l => lexStatementF fuel l
  | StateId.columnOrComma, l => pairRes (lexColumnOrCommaF l)
  | StateId.expressionOrIdentity, l => lexExpressionOrIdentityF fuel l
  | StateId.expression, l => pairRes (lexExpressionF l)
  | StateId.valueState, l =>
    match Lexer.lexValue fuel l with
    | none => StepRes.outOfFuel
    | some (_, l') => StepRes.ok none l'
  | StateId.fromKeyword, l => pairRes (fromKeywordF l)
  | StateId.sqlFromTable, l => pairRes (lexSqlFromTableF l)
  | StateId.sqlWhere, l => pairRes (lexSqlWhereF l)
  | StateId.sqlWhereColumn, l => pairRes (lexSqlWhereColumnF l)
  | StateId.sqlWhereColumnExpr, l => pairRes (lexSqlWhereColumnExprF l)
  | StateId.sqlWhereCommaOrLogicOrNext, l => pairRes (lexSqlWhereCommaOrLogicOrNextF l)
  | StateId.groupBy, l => pairRes (lexGroupByF l)
  | StateId.sqlGroupByColumns, l => pairRes (lexSqlGroupByColumnsF l)
  | StateId.sqlEndOfStatement, l => pairRes (lexSqlEndOfStatementF l)

-- Driver -----------------------------------------------------------------------

/-- Result of one Go `NextToken` call: a token (with the resulting lexer),
or a propagated panic, or fuel exhaustion of the driver loop or of a
state-internal loop. -/
inductive RunRes where
  | tok : Token → Lexer → RunRes
  | panicked : String → RunRes
  | outOfFuel : RunRes
  deriving DecidableEq, Repr

/-- The loop of Go `(*Lexer).NextToken`: deliver a buffered token if one
exists; otherwise pop a continuation when the state is nil and the stack
is non-empty; return `TokenEOF` when both are exhausted; otherwise run the
current state and store its returned state. -/
def nextTokenLoop : Nat → Lexer → RunRes
  | 0, _ => RunRes.outOfFuel
  | fuel + 1, l =>
    match l.tokens with
    | t :: rest => RunRes.tok t { l with tokens := rest }
    | [] =>
      match l.state with
      | none =>
        match l.stack with
        | [] => RunRes.tok { T := TokenEOF, V := "" } l
        | _ :: _ =>
          match l.pop with
          | (s, l') => nextTokenLoop fuel { l' with state := s }
      | some sid =>
        match step fuel sid l with
        | StepRes.ok s' l' => nextTokenLoop fuel { l' with state := s' }
        | StepRes.panicked m => RunRes.panicked m
        | StepRes.outOfFuel => RunRes.outOfFuel

/-- Collect the results of `n` successive `NextToken` calls. -/
def nextTokens : Nat → Nat → Lexer → Option (List Token)
  | 0, _, _ => some []
  | n + 1, fuel, l =>
    match nextTokenLoop fuel l with
    | RunRes.tok t l' =>
      match nextTokens n fuel l' with
      | some ts => some (t :: ts)
      | none => none
    | _ => none

/-- Go `NewLexer`, over an explicit code-point list. -/
def newLexerL (cs : List Char) : Lexer :=
  { input := cs, pos := 0, start := 0, width := 0,
    state := some StateId.statement, stack := [], tokens := [] }

/-- Go `NewLexer`. -/
def newLexer (s : String) : Lexer := newLexerL s.toList

-- Number scanning ---------------------------------------------------------------

/-- Go constant `decDigits`. -/
def decDigits : String := "0123456789"

/-- Go constant `hexDigits`. -/
def hexDigits : String := "0123456789ABCDEF"

/-- The shared tail of Go `scanNumber`: the literal must not be followed
by an alphanumeric rune. -/
def scanNumberFinish (typ : TokenType) (l : Lexer) : TokenType × Bool × Lexer :=
  if optIsAlNum l.peek then
    let (_, l) := l.next
    (typ, false, l)
  else (typ, true, l)

/-- The exponent part of the decimal branch of Go `scanNumber`. -/
def scanNumberExp (typ : TokenType) (l : Lexer) : TokenType × Bool × Lexer :=
  let (e, l) := l.accept ("e")
  if e then
    let (_, l) := l.accept ("+-")
    let (ok2, l) := l.acceptRun (decDigits)
    if ¬ ok2 then (typ, false, l)
    else scanNumberFinish TokenFloat l
  else scanNumberFinish typ l

/-- Go `scanNumber`.  The Go hexadecimal-prefix test is the slice
expression `l.input[l.pos:l.pos+2] == "0x"`; when fewer than two bytes
remain after the optional sign the slice bound exceeds the buffer length
and Go panics with a slice-bounds error, modelled as `Except.error`.
The leading-zero test reads `l.input[l.start]` (respectively
`l.input[l.start+1]` after a sign), in bounds on this path because at
least one digit was consumed. -/
def scanNumber (l0 : Lexer) : Except String (TokenType × Bool × Lexer) :=
  let typ := TokenInteger
  let (hasSign, l) := l0.accept ("+-")
  if l.remaining.length < 2 then
    Except.error ("slice bounds out of range")
  else if l.remaining.take 2 = ['0', 'x'] then
    if hasSign then Except.ok (typ, false, l)
    else
      let (_, l) := l.acceptRun ("0x")
      let (ok1, l) := l.acceptRun (hexDigits)
      if ¬ ok1 then Except.ok (typ, false, l)
      else
        let (d, l) := l.accept (".")
        if d then Except.ok (typ, false, l)
        else Except.ok (scanNumberFinish typ l)
  else
    let (ok1, l) := l.acceptRun (decDigits)
    if ¬ ok1 then Except.ok (typ, false, l)
    else
      let (d, l) := l.accept (".")
      if d then
        let (ok2, l) := l.acceptRun (decDigits)
        if ¬ ok2 then Except.ok (typ, false, l)
        else Except.ok (scanNumberExp TokenFloat l)
      else
        if (hasSign = false ∧ l.input.get? l.start.toNat = some '0') ∨
            (hasSign = true ∧ l.input.get? (l.start + 1).toNat = some '0') then
          Except.ok (typ, false, l)
        else Except.ok (scanNumberExp typ l)

/-- `%q` of Go `fmt.Sprintf` on a string with no escapes. -/
def goQuote (s : String) : String := "\"" ++ s ++ "\""

/-- Go `lexNumber`: emit the scanned type, or `errorf` on a bad literal;
a panic inside `scanNumber` propagates. -/
def lexNumberF (l : Lexer) : Except String (Option StateId × Lexer) :=
  match scanNumber l with
  | Except.error m => Except.error m
  | Except.ok (typ, ok, l') =>
    if ¬ ok then
      Except.ok (none, l'.errorf ("bad number syntax: " ++ goQuote l'.lexeme))
    else Except.ok (none, l'.emit typ)

/-- The token list produced by running `lexNumber` on a fresh lexer. -/
def lexNumTokens (s : String) : Option (List Token) :=
  match lexNumberF (newLexer s) with
  | Except.ok (_, l) => some l.tokens
  | Except.error _ => none

-- Concrete inputs used by the theorems -----------------------------------------

/-- A lexer that has reached the terminal driver configuration. -/
def terminalLexer : Lexer :=
  { input := [], pos := 0, start := 0, width := 0, state := none,
    stack := [], tokens := [] }

/-- A quote followed by `abc`: a quoted value whose closing quote never arrives. -/
def c5input : List Char := [squote, 'a', 'b', 'c']

/-- The single-quote-quoted identifier holding the text `first name`. -/
def qidInput : List Char :=
  squote :: ('f' :: 'i' :: 'r' :: 's' :: 't' :: ' ' :: 'n' :: 'a' :: 'm' :: 'e' :: [squote])

/-- The mismatched identifier: bracket-opened, quote-closed. -/
def midInput : List Char :=
  '[' :: 'f' :: 'i' :: 'r' :: 's' :: 't' :: ' ' :: 'n' :: 'a' :: 'm' :: 'e' :: [squote]

/-- The statement prefix `SELECT * FROM ` followed by a table name. -/
def selectStarFrom (t : List Char) : List Char :=
  'S' :: 'E' :: 'L' :: 'E' :: 'C' :: 'T' :: ' ' :: '*' :: ' ' ::
    'F' :: 'R' :: 'O' :: 'M' :: ' ' :: t

-- Helper lemmas ----------------------------------------------------------------

theorem remaining_width (l : Lexer) (w : Int) :
    Lexer.remaining { l with width := w } = l.remaining := rfl

theorem remaining_pos_add (l : Lexer) (k : Nat) (hpos : 0 ≤ l.pos) :
    Lexer.remaining { l with pos := l.pos + (k : Int) } = l.remaining.drop k := by
  show l.input.drop (l.pos + (k : Int)).toNat = (l.input.drop l.pos.toNat).drop k
  rw [Int.toNat_add hpos (by positivity), List.drop_drop]
  norm_num [Nat.add_comm]

theorem next_cons (l : Lexer) (c : Char) (cs : List Char) (h : l.remaining = c :: cs) :
    l.next = (some c, { l with pos := l.pos + 1, width := 1 }) := by
  unfold Lexer.next
  rw [h]

theorem next_nil (l : Lexer) (h : l.remaining = []) :
    l.next = (none, { l with width := 0 }) := by
  unfold Lexer.next
  rw [h]

theorem countWhile_all (p : Char → Bool) (xs : List Char)
    (h : ∀ x ∈ xs, p x = true) : countWhile p xs = xs.length := by
  induction xs with
  | nil => rfl
  | cons c cs ih =>
    have hc : p c = true := h c (by simp)
    simp [countWhile, hc, ih fun x hx => h x (by simp [hx])]

theorem countWhile_append_stop (p : Char → Bool) (xs : List Char) (c : Char)
    (cs : List Char) (hall : ∀ x ∈ xs, p x = true) (hc : p c = false) :
    countWhile p (xs ++ c :: cs) = xs.length := by
  induction xs with
  | nil => simp [countWhile, hc]
  | cons a as ih =>
    have ha : p a = true := hall a (by simp)
    simp [countWhile, ha, ih fun x hx => hall x (by simp [hx])]

theorem skipWS_split (l : Lexer) (w : List Char) (c : Char) (cs : List Char)
    (hpos : 0 ≤ l.pos) (hrem : l.remaining = w ++ c :: cs)
    (hw : ∀ x ∈ w, unicodeIsSpace x = true) (hc : unicodeIsSpace c = false) :
    l.skipWhiteSpaces =
      { l with pos := l.pos + (w.length : Int), start := l.pos + (w.length : Int),
               width := 1 } := by
  unfold Lexer.skipWhiteSpaces Lexer.nextWhile
  rw [hrem, countWhile_append_stop unicodeIsSpace w c cs hw hc]
  rw [next_cons _ c cs
    (by rw [remaining_pos_add l w.length hpos, hrem, List.drop_left])]
  simp [Lexer.backup, Lexer.ignore]

theorem skipWS_nil (l : Lexer) (hpos : 0 ≤ l.pos) (hrem : l.remaining = []) :
    l.skipWhiteSpaces = { l with start := l.pos, width := 0 } := by
  unfold Lexer.skipWhiteSpaces Lexer.nextWhile
  rw [hrem]
  show ((Lexer.next { l with pos := l.pos + ((0 : Nat) : Int) }).2.backup).ignore = _
  rw [next_nil _ (by rw [show ({ l with pos := l.pos + ((0 : Nat) : Int) } : Lexer)
        = { l with pos := l.pos } from by simp, ]; exact hrem)]
  simp [Lexer.backup, Lexer.ignore]

theorem tryMatch_at_eof (l : Lexer) (mt : String) (c : Char) (cs : List Char)
    (hmt : mt.toList = c :: cs) (h : l.remaining = []) :
    l.tryMatch mt = (false, { l with width := 0 }) := by
  unfold Lexer.tryMatch
  rw [hmt]
  unfold tryMatchChars
  rw [next_nil l h]
  simp [optToLower, Lexer.backupN, Lexer.backup]

/-- The terminal driver configuration is absorbing: with no current
state, an empty continuation stack, and no buffered token, `NextToken`
returns the end-of-input token and leaves the lexer unchanged. -/
theorem nextTokenLoop_terminal (fuel : Nat) (l : Lexer) (h1 : l.state = none)
    (h2 : l.stack = []) (h3 : l.tokens = []) :
    nextTokenLoop (fuel + 1) l = RunRes.tok { T := TokenEOF, V := "" } l := by
  unfold nextTokenLoop
  rw [h3, h1, h2]

theorem lexIfElseMatch_at_eof (l : Lexer) (typ : TokenType)
    (m n : Option StateId) (c : Char) (cs : List Char)
    (hmt : (tokenTypeString typ).toList = c :: cs)
    (hpos : 0 ≤ l.pos) (hrem : l.remaining = []) :
    l.lexIfElseMatch typ m n = (n, { l with start := l.pos, width := 0 }) := by
  unfold Lexer.lexIfElseMatch
  rw [skipWS_nil l hpos hrem]
  rw [tryMatch_at_eof _ _ c cs hmt (by exact hrem)]

/-- Driver glue: delivering a buffered token. -/
theorem nextTokenLoop_deliver (fuel : Nat) (l : Lexer) (t : Token) (rest : List Token)
    (htok : l.tokens = t :: rest) :
    nextTokenLoop (fuel + 1) l = RunRes.tok t { l with tokens := rest } := by
  simp only [nextTokenLoop]
  rw [htok]

/-- Driver glue: running the current state for one iteration. -/
theorem nextTokenLoop_step (fuel : Nat) (l : Lexer) (sid : StateId)
    (s' : Option StateId) (l' : Lexer)
    (htok : l.tokens = []) (hst : l.state = some sid)
    (hstep : step fuel sid l = StepRes.ok s' l') :
    nextTokenLoop (fuel + 1) l = nextTokenLoop fuel { l' with state := s' } := by
  simp only [nextTokenLoop]
  rw [htok, hst]
  exact congrArg (fun r => match r with
    | StepRes.ok s'' l'' => nextTokenLoop fuel { l'' with state := s'' }
    | StepRes.panicked m => RunRes.panicked m
    | StepRes.outOfFuel => RunRes.outOfFuel) hstep

/-- Driver glue: popping a continuation when the state is nil. -/
theorem nextTokenLoop_pop (fuel : Nat) (l : Lexer) (name : String) (sid : StateId)
    (rest : List (String × StateId))
    (htok : l.tokens = []) (hst : l.state = none)
    (hstack : l.stack = (name, sid) :: rest) :
    nextTokenLoop (fuel + 1) l =
      nextTokenLoop fuel { l with state := some sid, stack := rest } := by
  simp only [nextTokenLoop, Lexer.pop]
  rw [htok, hst, hstack]

theorem sqlWhere_eof (l : Lexer) (hpos : 0 ≤ l.pos) (hrem : l.remaining = []) :
    lexSqlWhereF l = (some StateId.groupBy, { l with start := l.pos, width := 0 }) :=
  lexIfElseMatch_at_eof l TokenWhere _ _ 'w' ['h', 'e', 'r', 'e'] rfl hpos hrem

theorem groupBy_eof (l : Lexer) (hpos : 0 ≤ l.pos) (hrem : l.remaining = []) :
    lexGroupByF l =
      (some StateId.sqlEndOfStatement, { l with start := l.pos, width := 0 }) :=
  lexIfElseMatch_at_eof l TokenGroupBy _ _ 'g' ['r', 'o', 'u', 'p', ' ', 'b', 'y']
    rfl hpos hrem

theorem endOfStatement_eof (l : Lexer) (hpos : 0 ≤ l.pos) (hrem : l.remaining = []) :
    lexSqlEndOfStatementF l = (none, { l with start := l.pos, width := 0 }) := by
  have h' : l.input.drop l.pos.toNat = [] := hrem
  simp only [lexSqlEndOfStatementF]
  rw [skipWS_nil l hpos hrem, next_nil _ (by exact hrem)]
  simp [Lexer.isEnd, Lexer.remaining, h']

/-- Running the driver from the WHERE state at end of input: WHERE does
not match, GROUP BY does not match, the end-of-statement state finds the
input exhausted, and the driver reports end of input. -/
theorem run_sqlWhere_to_eof (fuel : Nat) (l : Lexer)
    (hrem : l.remaining = []) (hst : l.state = some StateId.sqlWhere)
    (hstack : l.stack = []) (htok : l.tokens = []) (hpos : 0 ≤ l.pos) :
    nextTokenLoop (fuel + 1 + 1 + 1 + 1) l =
      RunRes.tok { T := TokenEOF, V := "" }
        { l with start := l.pos, width := 0, state := none } := by
  rw [nextTokenLoop_step (fuel + 1 + 1 + 1) l StateId.sqlWhere (some StateId.groupBy)
    { l with start := l.pos, width := 0 } htok hst
    (by show pairRes (lexSqlWhereF l) = _; rw [sqlWhere_eof l hpos hrem]; rfl)]
  rw [nextTokenLoop_step (fuel + 1 + 1) _ StateId.groupBy (some StateId.sqlEndOfStatement)
    { l with start := l.pos, width := 0, state := some StateId.groupBy }
    (by exact htok) rfl
    (by show pairRes (lexGroupByF _) = _
        rw [groupBy_eof _ (by exact hpos) (by exact hrem)]
        rfl)]
  rw [nextTokenLoop_step (fuel + 1) _ StateId.sqlEndOfStatement none
    { l with start := l.pos, width := 0, state := some StateId.sqlEndOfStatement }
    (by exact htok) rfl
    (by show pairRes (lexSqlEndOfStatementF _) = _
        rw [endOfStatement_eof _ (by exact hpos) (by exact hrem)]
        rfl)]
  exact nextTokenLoop_terminal fuel _ rfl (by exact hstack) (by exact htok)

/-- The quoted-value loop never terminates when no quote and no NUL
character remains in the input: at end of input `next` keeps returning
the eof sentinel, which the `rune == 0` guard does not recognize. -/
theorem lexValueQuoted_spins (fuel : Nat) : ∀ (typ : TokenType) (l : Lexer),
    0 ≤ l.pos →
    (∀ x ∈ l.remaining, ¬(x = squote ∨ x = dquote ∨ x = Char.ofNat 0)) →
    lexValueQuoted fuel typ l = none := by
  induction fuel with
  | zero => intro typ l _ _; rfl
  | succ n ih =>
    intro typ l hpos hmem
    cases hr : l.remaining with
    | nil =>
      rw [lexValueQuoted, next_nil l hr]
      have : Lexer.remaining { l with width := (0 : Int) } = [] := by
        rw [remaining_width, hr]
      simp only []
      rw [if_neg (by simp), if_neg (by simp)]
      exact ih typ _ hpos (by rw [remaining_width, hr]; simp)
    | cons c cs =>
      have hc := hmem c (by rw [hr]; simp)
      rw [lexValueQuoted, next_cons l c cs hr]
      simp only []
      rw [if_neg (by simp at hc ⊢; tauto), if_neg (by simp at hc ⊢; tauto)]
      refine ih typ _ (by simp; omega) ?_
      intro x hx
      refine hmem x ?_
      rw [show Lexer.remaining { l with pos := l.pos + 1, width := (1 : Int) }
            = cs from ?_] at hx
      · rw [hr]; simp [hx]
      · have := remaining_pos_add l 1 hpos
        simp only [Nat.cast_one] at this
        show Lexer.remaining { l with pos := l.pos + 1, width := (1 : Int) } = cs
        rw [show ({ l with pos := l.pos + 1, width := (1 : Int) } : Lexer).remaining
              = ({ l with pos := l.pos + 1 } : Lexer).remaining from rfl, this, hr]
        rfl

theorem remaining_shift (l : Lexer) (k : Nat) (p' : Int) (hpos : 0 ≤ l.pos)
    (hp : p' = l.pos + (k : Int)) : l.input.drop p'.toNat = l.remaining.drop k := by
  subst hp
  exact remaining_pos_add l k hpos

/-- `lexIdentifier` on leading whitespace followed by a bare identifier
that runs to the end of the input: the whole identifier is consumed and
emitted as the token text. -/
theorem lexIdentifier_bare_to_eof (l : Lexer) (typ : TokenType) (fn : Option StateId)
    (ws : List Char) (c : Char) (rest : List Char)
    (hpos : 0 ≤ l.pos)
    (hrem : l.remaining = ws ++ c :: rest)
    (hws : ∀ x ∈ ws, unicodeIsSpace x = true)
    (hcsp : unicodeIsSpace c = false)
    (hcl : unicodeIsLetter c = true)
    (hcb : c ≠ '[') (hcq : c ≠ squote)
    (hall : ∀ x ∈ rest, isIdentifierRune x = true) :
    l.lexIdentifier typ fn =
      (fn, { l with pos := l.pos + ((ws.length + 1 + rest.length : Nat) : Int),
                    start := l.pos + ((ws.length + 1 + rest.length : Nat) : Int),
                    width := 0,
                    tokens := l.tokens ++ [{ T := typ, V := String.mk (c :: rest) }] }) := by
  have hrc : Lexer.remaining
      { l with pos := l.pos + (ws.length : Int),
               start := l.pos + (ws.length : Int), width := 1 } = c :: rest := by
    show l.input.drop (l.pos + (ws.length : Int)).toNat = c :: rest
    rw [remaining_shift l ws.length _ hpos rfl, hrem, List.drop_left]
  have hrc2 : Lexer.remaining
      { l with pos := l.pos + (ws.length : Int) + 1,
               start := l.pos + (ws.length : Int), width := 1 } = rest := by
    show l.input.drop (l.pos + (ws.length : Int) + 1).toNat = rest
    rw [remaining_shift l (ws.length + 1) _ hpos (by push_cast; ring), hrem]
    rw [show ws.length + 1 = (ws ++ [c]).length by simp]
    rw [show ws ++ c :: rest = (ws ++ [c]) ++ rest by simp]
    rw [List.drop_left]
  have hcw : countWhile isIdentifierRune rest = rest.length := countWhile_all _ _ hall
  have hrc3 : Lexer.remaining
      { l with pos := l.pos + (ws.length : Int) + 1 + (rest.length : Int),
               start := l.pos + (ws.length : Int), width := 1 } = [] := by
    show l.input.drop (l.pos + (ws.length : Int) + 1 + (rest.length : Int)).toNat = []
    rw [remaining_shift l (ws.length + 1 + rest.length) _ hpos (by push_cast; ring), hrem]
    rw [show ws.length + 1 + rest.length = (ws ++ c :: rest).length by simp; omega]
    exact List.drop_length _
  simp only [Lexer.lexIdentifier]
  rw [skipWS_split l ws c rest hpos hrem hws hcsp]
  rw [next_cons _ c rest hrc]
  rw [if_neg (by simp [hcb, hcq])]
  rw [if_neg (by simp [optIsLetter, hcl])]
  rw [show Lexer.nextWhile
        { l with pos := l.pos + (ws.length : Int) + 1,
                 start := l.pos + (ws.length : Int), width := 1 } isIdentifierRune
      = (none, { l with pos := l.pos + (ws.length : Int) + 1 + (rest.length : Int),
                        start := l.pos + (ws.length : Int), width := 0 }) from ?_]
  · rw [show Lexer.backup
        { l with pos := l.pos + (ws.length : Int) + 1 + (rest.length : Int),
                 start := l.pos + (ws.length : Int), width := 0 }
      = { l with pos := l.pos + (ws.length : Int) + 1 + (rest.length : Int),
                 start := l.pos + (ws.length : Int), width := 0 } from by
        simp [Lexer.backup]]
    show (fn, Lexer.emit _ typ) = _
    unfold Lexer.emit Lexer.lexeme
    refine Prod.ext rfl ?_
    have hdrop : l.input.drop (l.pos + (ws.length : Int)).toNat = c :: rest := hrc
    have htk : (l.pos + (ws.length : Int) + 1 + (rest.length : Int) -
        (l.pos + (ws.length : Int))).toNat = rest.length + 1 := by omega
    have hp' : l.pos + (ws.length : Int) + 1 + (rest.length : Int)
        = l.pos + ((ws.length + 1 + rest.length : Nat) : Int) := by push_cast; ring
    dsimp only
    rw [hdrop, htk]
    rw [show rest.length + 1 = (c :: rest).length from by simp]
    rw [List.take_length, hp']
  · unfold Lexer.nextWhile
    rw [show countWhile isIdentifierRune
          (Lexer.remaining
            { l with pos := l.pos + (ws.length : Int) + 1,
                     start := l.pos + (ws.length : Int), width := 1 }) = rest.length from by
        rw [hrc2]; exact hcw]
    rw [next_nil _ (by
      show Lexer.remaining _ = []
      rw [show Lexer.remaining
            { l with pos := l.pos + (ws.length : Int) + 1 + ((rest.length : Nat) : Int),
                     start := l.pos + (ws.length : Int), width := 1 } = [] from hrc3])]

theorem letter_not_space (c : Char) (h : unicodeIsLetter c = true) :
    unicodeIsSpace c = false := by
  by_contra hns
  rw [Bool.not_eq_false] at hns
  simp only [unicodeIsSpace, decide_eq_true_eq] at hns
  rcases hns with h1 | h1 | h1 | h1 | h1 | h1 | h1 | h1 <;>
    (subst h1; exact absurd h (by decide))

theorem letter_ne_of_not_letter (c d : Char) (h : unicodeIsLetter c = true)
    (hd : unicodeIsLetter d = false) : c ≠ d := by
  intro he
  rw [he, hd] at h
  exact Bool.false_ne_true h

/-- `lexStatement` on an input whose first non-whitespace character is
neither a comment prefix nor `s`/`S`: the default branch only logs, no
text has been consumed (so no `TokenText`), and a plain `TokenEOF` is
emitted. -/
theorem lexStatement_default (fuel : Nat) (l : Lexer) (w : List Char) (c : Char)
    (cs : List Char) (hpos : 0 ≤ l.pos) (hrem : l.remaining = w ++ c :: cs)
    (hw : ∀ x ∈ w, unicodeIsSpace x = true) (hc : unicodeIsSpace c = false)
    (hns : c ∉ (['/', '-', '#', 's', 'S'] : List Char)) :
    lexStatementF fuel l =
      StepRes.ok none
        { l with pos := l.pos + (w.length : Int), start := l.pos + (w.length : Int),
                 width := 1,
                 tokens := l.tokens ++ [{ T := TokenEOF, V := "" }] } := by
  simp only [List.mem_cons, List.not_mem_nil, not_or, or_false] at hns
  obtain ⟨h1, h2, h3, h4, h5⟩ := hns
  have hrc : Lexer.remaining
      { l with pos := l.pos + (w.length : Int),
               start := l.pos + (w.length : Int), width := 1 } = c :: cs := by
    show l.input.drop (l.pos + (w.length : Int)).toNat = c :: cs
    rw [show l.input.drop (l.pos + (w.length : Int)).toNat = l.remaining.drop w.length
      from remaining_pos_add l w.length hpos]
    rw [hrem, List.drop_left]
  have hpk : Lexer.peek
      { l with pos := l.pos + (w.length : Int),
               start := l.pos + (w.length : Int), width := 1 } = some c := by
    unfold Lexer.peek
    rw [next_cons _ c cs hrc]
  simp only [lexStatementF]
  rw [skipWS_split l w c cs hpos hrem hw hc, hpk]
  rw [if_neg (by simp [h1, h2, h3]), if_neg (by simp [h4, h5])]
  rw [if_neg (by simp)]
  simp [Lexer.emit, Lexer.lexeme]

-- Claim theorems ----------------------------------------------------------------

/-- Claim C1.  The claim states that no single transition invocation ever
emits two or more tokens.  The code violates it: in a WHERE clause the
comparator transition `lexSqlWhereColumnExpr`, on input `>= 5`, emits
`TokenGE` and then unconditionally also emits `TokenGT` (the Go `case '>'`
falls through to `l.emit(TokenGT)` after emitting `TokenGE`), i.e. two
tokens in one invocation; with the Go token channel of capacity 1 the
second emit would block `NextToken` forever. -/
theorem c1_whereExpr_ge_double_emit :
    (lexSqlWhereColumnExprF (newLexer (">= 5"))).2.tokens =
      [{ T := TokenGE, V := ">=" }, { T := TokenGT, V := "" }] ∧
    (lexSqlWhereColumnExprF (newLexer (">= 5"))).2.tokens.length = 2 := by
  constructor <;> decide

/-- Claim C5.  The claim says an unterminated quoted value terminates with
an unterminated-literal error token.  The code instead loops forever: the
loop guard compares the rune against 0, but `next` returns the sentinel
(-1 in Go, `none` here) at end of input, so the guard never fires and the
`"string value was not delimited"` error is unreachable.  On the
unterminated input (a quote followed by `abc`) the value lexer exhausts any amount of fuel. -/
theorem c5_unterminated_value_diverges :
    ∀ fuel : Nat, Lexer.lexValue fuel (newLexerL c5input) = none := by
  intro fuel
  have h : Lexer.lexValue fuel (newLexerL c5input) =
      lexValueQuoted fuel TokenValue
        { input := c5input, pos := 1, start := 1, width := 1,
          state := some StateId.statement, stack := [], tokens := [] } := rfl
  rw [h]
  exact lexValueQuoted_spins fuel TokenValue _ (by norm_num) (by decide)

/-- Collecting successive tokens, one driver call at a time. -/
theorem nextTokens_cons (n fuel : Nat) (l : Lexer) (t : Token) (l' : Lexer)
    (h : nextTokenLoop fuel l = RunRes.tok t l') :
    nextTokens (n + 1) fuel l =
      match nextTokens n fuel l' with
      | some ts => some (t :: ts)
      | none => none := by
  simp only [nextTokens]
  rw [h]

/-- Claim C3.  For every table name that is a bare identifier (a letter
followed by identifier runes), lexing `SELECT * FROM <table>` yields
exactly the tokens SELECT, STAR, FROM, TABLE(table), followed by
end-of-input (and end-of-input again on every further call). -/
theorem c3_select_star_from_table (c : Char) (rest : List Char)
    (hcl : unicodeIsLetter c = true)
    (hall : ∀ x ∈ rest, isIdentifierRune x = true) :
    nextTokens 6 20 (newLexerL (selectStarFrom (c :: rest))) =
      some [{ T := TokenSelect, V := "SELECT" }, { T := TokenStar, V := "*" },
            { T := TokenFrom, V := "FROM" },
            { T := TokenTable, V := String.mk (c :: rest) },
            { T := TokenEOF, V := "" }, { T := TokenEOF, V := "" }] := by
  have h1 : nextTokenLoop 20 (newLexerL (selectStarFrom (c :: rest))) =
      RunRes.tok { T := TokenSelect, V := "SELECT" }
        { input := selectStarFrom (c :: rest), pos := 6, start := 6, width := 1,
          state := some StateId.columnOrComma,
          stack := [("from keyword", StateId.fromKeyword)], tokens := [] } := rfl
  have h2 : nextTokenLoop 20
      ({ input := selectStarFrom (c :: rest), pos := 6, start := 6, width := 1,
         state := some StateId.columnOrComma,
         stack := [("from keyword", StateId.fromKeyword)], tokens := [] } : Lexer) =
      RunRes.tok { T := TokenStar, V := "*" }
        { input := selectStarFrom (c :: rest), pos := 8, start := 8, width := 1,
          state := none,
          stack := [("from keyword", StateId.fromKeyword)], tokens := [] } := rfl
  have h3 : nextTokenLoop 20
      ({ input := selectStarFrom (c :: rest), pos := 8, start := 8, width := 1,
         state := none,
         stack := [("from keyword", StateId.fromKeyword)], tokens := [] } : Lexer) =
      RunRes.tok { T := TokenFrom, V := "FROM" }
        { input := selectStarFrom (c :: rest), pos := 13, start := 13, width := 1,
          state := some StateId.sqlFromTable, stack := [], tokens := [] } := rfl
  have e4 : step 19 StateId.sqlFromTable
      ({ input := selectStarFrom (c :: rest), pos := 13, start := 13, width := 1,
         state := some StateId.sqlFromTable, stack := [], tokens := [] } : Lexer) =
      StepRes.ok (some StateId.sqlWhere)
        { input := selectStarFrom (c :: rest),
          pos := (13 : Int) + ((1 + 1 + rest.length : Nat) : Int),
          start := (13 : Int) + ((1 + 1 + rest.length : Nat) : Int), width := 0,
          state := some StateId.sqlFromTable, stack := [],
          tokens := [{ T := TokenTable, V := String.mk (c :: rest) }] } := by
    show pairRes (lexSqlFromTableF _) = _
    rw [lexSqlFromTableF, lexIdentifier_bare_to_eof
      ({ input := selectStarFrom (c :: rest), pos := 13, start := 13, width := 1,
         state := some StateId.sqlFromTable, stack := [], tokens := [] } : Lexer)
      TokenTable (some StateId.sqlWhere) [' '] c rest (by norm_num) rfl (by decide)
      (letter_not_space c hcl) hcl
      (letter_ne_of_not_letter c '[' hcl (by decide))
      (letter_ne_of_not_letter c squote hcl (by decide)) hall]
    rfl
  have h4 : nextTokenLoop 20
      ({ input := selectStarFrom (c :: rest), pos := 13, start := 13, width := 1,
         state := some StateId.sqlFromTable, stack := [], tokens := [] } : Lexer) =
      RunRes.tok { T := TokenTable, V := String.mk (c :: rest) }
        { input := selectStarFrom (c :: rest),
          pos := (13 : Int) + ((1 + 1 + rest.length : Nat) : Int),
          start := (13 : Int) + ((1 + 1 + rest.length : Nat) : Int), width := 0,
          state := some StateId.sqlWhere, stack := [], tokens := [] } := by
    rw [nextTokenLoop_step 19 _ StateId.sqlFromTable (some StateId.sqlWhere) _ rfl rfl e4]
    exact nextTokenLoop_deliver 18 _ { T := TokenTable, V := String.mk (c :: rest) } [] rfl
  have hrem4 : Lexer.remaining
      ({ input := selectStarFrom (c :: rest),
         pos := (13 : Int) + ((1 + 1 + rest.length : Nat) : Int),
         start := (13 : Int) + ((1 + 1 + rest.length : Nat) : Int), width := 0,
         state := some StateId.sqlWhere, stack := [], tokens := [] } : Lexer) = [] := by
    show (selectStarFrom (c :: rest)).drop
      ((13 : Int) + ((1 + 1 + rest.length : Nat) : Int)).toNat = []
    have ht : ((13 : Int) + ((1 + 1 + rest.length : Nat) : Int)).toNat
        = (selectStarFrom (c :: rest)).length := by
      simp [selectStarFrom]
      omega
    rw [ht, List.drop_length]
  have h5 : nextTokenLoop 20
      ({ input := selectStarFrom (c :: rest),
         pos := (13 : Int) + ((1 + 1 + rest.length : Nat) : Int),
         start := (13 : Int) + ((1 + 1 + rest.length : Nat) : Int), width := 0,
         state := some StateId.sqlWhere, stack := [], tokens := [] } : Lexer) =
      RunRes.tok { T := TokenEOF, V := "" }
        { input := selectStarFrom (c :: rest),
          pos := (13 : Int) + ((1 + 1 + rest.length : Nat) : Int),
          start := (13 : Int) + ((1 + 1 + rest.length : Nat) : Int), width := 0,
          state := none, stack := [], tokens := [] } := by
    have := run_sqlWhere_to_eof 16
      ({ input := selectStarFrom (c :: rest),
         pos := (13 : Int) + ((1 + 1 + rest.length : Nat) : Int),
         start := (13 : Int) + ((1 + 1 + rest.length : Nat) : Int), width := 0,
         state := some StateId.sqlWhere, stack := [], tokens := [] } : Lexer)
      hrem4 rfl rfl rfl (by positivity)
    exact this
  have h6 : nextTokenLoop 20
      ({ input := selectStarFrom (c :: rest),
         pos := (13 : Int) + ((1 + 1 + rest.length : Nat) : Int),
         start := (13 : Int) + ((1 + 1 + rest.length : Nat) : Int), width := 0,
         state := none, stack := [], tokens := [] } : Lexer) =
      RunRes.tok { T := TokenEOF, V := "" }
        { input := selectStarFrom (c :: rest),
          pos := (13 : Int) + ((1 + 1 + rest.length : Nat) : Int),
          start := (13 : Int) + ((1 + 1 + rest.length : Nat) : Int), width := 0,
          state := none, stack := [], tokens := [] } :=
    nextTokenLoop_terminal 19 _ rfl rfl rfl
  rw [nextTokens_cons 5 20 _ _ _ h1]
  rw [nextTokens_cons 4 20 _ _ _ h2]
  rw [nextTokens_cons 3 20 _ _ _ h3]
  rw [nextTokens_cons 2 20 _ _ _ h4]
  rw [nextTokens_cons 1 20 _ _ _ h5]
  rw [nextTokens_cons 0 20 _ _ _ h6]
  rfl

/-- Witness for claim C3 at the concrete statement `SELECT * FROM tbl`. -/
theorem c3_witness :
    nextTokens 6 20 (newLexerL (selectStarFrom ('t' :: ['b', 'l']))) =
      some [{ T := TokenSelect, V := "SELECT" }, { T := TokenStar, V := "*" },
            { T := TokenFrom, V := "FROM" },
            { T := TokenTable, V := String.mk ('t' :: ['b', 'l']) },
            { T := TokenEOF, V := "" }, { T := TokenEOF, V := "" }] :=
  c3_select_star_from_table 't' ['b', 'l'] (by decide) (by decide)

/-- Witness for claim C5 at the concrete fuel bound 1000. -/
theorem c5_witness : Lexer.lexValue 1000 (newLexerL c5input) = none :=
  c5_unterminated_value_diverges 1000

/-- Claim C4.  The claim states that a bare `!` not followed by `=` is
surfaced as an error-kind token.  The code only logs and returns the nil
state: on input `!x` the transition emits no token at all (in particular
no `TokenError`) and pushes no continuation. -/
theorem c4_bang_without_equal_emits_nothing :
    (lexSqlWhereColumnExprF (newLexer ("!x"))).1 = none ∧
    (lexSqlWhereColumnExprF (newLexer ("!x"))).2.tokens = [] ∧
    (lexSqlWhereColumnExprF (newLexer ("!x"))).2.stack = [] := by
  refine ⟨?_, ?_, ?_⟩ <;> decide

/-- Claim C4, amended.  The comparator lexer emits exactly one operator
token for `!=`, `=`, `>`, `<=`, `IN` and `LIKE`; but `>=` emits `TokenGE`
followed by a spurious empty `TokenGT`, a bare `<` emits no operator token
at all, and a bare `!` not followed by `=` emits no token (not even an
error token) and simply ends the transition. -/
theorem c4_amended_operator_behavior :
    (lexSqlWhereColumnExprF (newLexer ("!= 5"))).2.tokens = [{ T := TokenNE, V := "!=" }] ∧
    (lexSqlWhereColumnExprF (newLexer ("= 5"))).2.tokens = [{ T := TokenEqual, V := "=" }] ∧
    (lexSqlWhereColumnExprF (newLexer ("> 5"))).2.tokens = [{ T := TokenGT, V := ">" }] ∧
    (lexSqlWhereColumnExprF (newLexer (">= 5"))).2.tokens =
      [{ T := TokenGE, V := ">=" }, { T := TokenGT, V := "" }] ∧
    (lexSqlWhereColumnExprF (newLexer ("< 5"))).2.tokens = [] ∧
    (lexSqlWhereColumnExprF (newLexer ("<= 5"))).2.tokens = [{ T := TokenLE, V := "<=" }] ∧
    (lexSqlWhereColumnExprF (newLexer ("IN (1)"))).2.tokens = [{ T := TokenIN, V := "IN" }] ∧
    (lexSqlWhereColumnExprF (newLexer ("LIKE x"))).2.tokens = [{ T := TokenLike, V := "LIKE" }] ∧
    (lexSqlWhereColumnExprF (newLexer ("!x"))).2.tokens = [] := by
  refine ⟨?_, ?_, ?_, ?_, ?_, ?_, ?_, ?_, ?_⟩ <;> decide

/-- Claim C2.  The claim states that once an error token has been
produced, every subsequent `NextToken` call returns the terminal
end-of-input token and never resumes scanning by popping remaining
continuations.  Counterexample: on `select ., b from t` the second call
returns an error token while two continuations remain on the stack; the
third and fourth calls pop them and return `TokenComma` and `TokenColumn`,
both different from `TokenEOF`. -/
theorem c2_error_then_scanning_resumes :
    nextTokens 4 30 (newLexer ("select ., b from t")) =
      some [{ T := TokenSelect, V := "select" }, { T := TokenError, V := "." },
            { T := TokenComma, V := "," }, { T := TokenColumn, V := "b" }] := by
  decide

/-- Claim C2, amended.  Only the fully terminal driver configuration (nil
state, empty continuation stack, no buffered token) is absorbing: from it
every call returns the end-of-input token and leaves the lexer unchanged.
An error token does not by itself terminate scanning: when continuations
remain on the stack the driver pops them and can return further
non-end-of-input tokens, as on `select ., b from t`. -/
theorem c2_amended_termination_behavior :
    (∀ (l : Lexer) (fuel : Nat), l.state = none → l.stack = [] → l.tokens = [] →
      nextTokenLoop (fuel + 1) l = RunRes.tok { T := TokenEOF, V := "" } l) ∧
    nextTokens 4 30 (newLexer ("select ., b from t")) =
      some [{ T := TokenSelect, V := "select" }, { T := TokenError, V := "." },
            { T := TokenComma, V := "," }, { T := TokenColumn, V := "b" }] := by
  exact ⟨fun l fuel h1 h2 h3 => nextTokenLoop_terminal fuel l h1 h2 h3, by decide⟩

/-- Witness for the amended claim C2, at the concrete terminal lexer. -/
theorem c2_amended_witness :
    nextTokenLoop 3 terminalLexer = RunRes.tok { T := TokenEOF, V := "" } terminalLexer :=
  c2_amended_termination_behavior.1 terminalLexer 2 rfl rfl rfl

/-- Claim C6.  The claim states that an unrecognized leading keyword
produces a malformed-statement error token rather than a plain
end-of-input token.  The code does the opposite: on `update foo` (leading
`u`, not a comment prefix and not `s`/`S`) the statement transition only
logs, and every `NextToken` call returns a plain `TokenEOF`; no
`TokenError` is ever produced. -/
theorem c6_unrecognized_keyword_yields_plain_eof :
    nextTokens 3 10 (newLexer ("update foo")) =
      some [{ T := TokenEOF, V := "" }, { T := TokenEOF, V := "" },
            { T := TokenEOF, V := "" }] := by
  decide

/-- Claim C6, amended.  For every input consisting of optional leading
whitespace, then a first non-whitespace character that is neither a
comment prefix (`/`, `-`, `#`) nor `s`/`S`, the statement lexer emits no
error token: it only logs the unrecognized keyword and `NextToken`
returns a plain end-of-input token, leaving the driver in its terminal
configuration. -/
theorem c6_amended_plain_eof (w r : List Char) (c : Char)
    (hw : ∀ x ∈ w, unicodeIsSpace x = true)
    (hc : unicodeIsSpace c = false)
    (hns : c ∉ (['/', '-', '#', 's', 'S'] : List Char)) :
    nextTokenLoop 10 (newLexerL (w ++ c :: r)) =
      RunRes.tok { T := TokenEOF, V := "" }
        { input := w ++ c :: r, pos := (w.length : Int), start := (w.length : Int),
          width := 1, state := none, stack := [], tokens := [] } := by
  have e1 := lexStatement_default 9 (newLexerL (w ++ c :: r)) w c r
    (by norm_num [newLexerL]) (by simp [newLexerL, Lexer.remaining]) hw hc hns
  rw [nextTokenLoop_step 9 (newLexerL (w ++ c :: r)) StateId.statement none _ rfl rfl e1]
  rw [nextTokenLoop_deliver 8 _ { T := TokenEOF, V := "" } [] (by rfl)]
  congr 1
  simp [newLexerL]

/-- Witness for the amended claim C6 at the input `update foo`. -/
theorem c6_amended_witness :
    nextTokenLoop 10 (newLexerL ([] ++ 'u' :: " pdate foo".toList)) =
      RunRes.tok { T := TokenEOF, V := "" }
        { input := [] ++ 'u' :: " pdate foo".toList, pos := (([] : List Char).length : Int),
          start := (([] : List Char).length : Int), width := 1, state := none,
          stack := [], tokens := [] } :=
  c6_amended_plain_eof [] (" pdate foo".toList) 'u' (by simp) (by decide) (by decide)

/-- Claim C7.  The number scanner classifies the six standalone inputs
exactly as the claim states: `123` is an integer, `123.45` a float,
`0x1A2B` an integer, `-3e-3` a float, and `0123` and `0x1.5` produce a
malformed-number error token (`lexNumber` runs `errorf` with the
`bad number syntax: %q` message). -/
theorem c7_numeric_roundtrip :
    lexNumTokens ("123") = some [{ T := TokenInteger, V := "123" }] ∧
    lexNumTokens ("123.45") = some [{ T := TokenFloat, V := "123.45" }] ∧
    lexNumTokens ("0x1A2B") = some [{ T := TokenInteger, V := "0x1A2B" }] ∧
    lexNumTokens ("-3e-3") = some [{ T := TokenFloat, V := "-3e-3" }] ∧
    lexNumTokens ("0123") =
      some [{ T := TokenError, V := "bad number syntax: " ++ goQuote ("0123") }] ∧
    lexNumTokens ("0x1.5") =
      some [{ T := TokenError, V := "bad number syntax: " ++ goQuote ("0x1.") }] := by
  refine ⟨?_, ?_, ?_, ?_, ?_, ?_⟩ <;> decide

/-- Claim C8.  The claim states that a second `backup` without an
intervening `next` is rejected or fails loudly and never silently moves
the position past the buffer start.  The code has no guard: on input `a`,
after one `next`, two `backup` calls silently drive `pos` to `-1` —
before the start of the buffer — and no error token is emitted. -/
theorem c8_double_backup_goes_negative :
    ((((newLexer ("a")).next).2.backup).backup).pos = -1 ∧
    ((((newLexer ("a")).next).2.backup).backup).tokens = [] := by
  constructor <;> decide

/-- Claim C8, amended.  `backup` immediately after `next` restores the
position exactly (also at end of input, where the recorded width is 0);
but `backup` is entirely unguarded: a second call subtracts the recorded
width again, silently moving the position — on input `a` down to `-1`,
past the buffer start. -/
theorem c8_amended_backup_behavior :
    (∀ l : Lexer, ((l.next).2.backup).pos = l.pos) ∧
    (∀ l : Lexer, (((l.next).2.backup).backup).pos = l.pos - (l.next).2.width) ∧
    ((((newLexer ("a")).next).2.backup).backup).pos = -1 := by
  refine ⟨fun l => ?_, fun l => ?_, by decide⟩ <;>
    · cases hr : l.remaining with
      | nil => rw [next_nil l hr]; simp [Lexer.backup]
      | cons c cs => rw [next_cons l c cs hr]; simp [Lexer.backup]

/-- Witness for the amended claim C8 at the concrete input `ab`. -/
theorem c8_amended_witness :
    (((newLexer ("ab")).next).2.backup).pos = (newLexer ("ab")).pos :=
  c8_amended_backup_behavior.1 (newLexer ("ab"))

/-- Claim C9.  Identifier lexing strips the quoting delimiters:
bracket-quoted and single-quote-quoted `first name` both emit a column token whose text is
`first name`, and the mismatched bracket-opened, quote-closed form emits an error-kind token
(whose value is the consumed lexeme, since Go `errorToken` discards its
message argument). -/
theorem c9_quoted_identifier_delimiters :
    (Lexer.lexIdentifier (newLexer ("[first name]")) TokenColumn none).2.tokens =
      [{ T := TokenColumn, V := "first name" }] ∧
    (Lexer.lexIdentifier (newLexerL qidInput) TokenColumn none).2.tokens =
      [{ T := TokenColumn, V := "first name" }] ∧
    (Lexer.lexIdentifier (newLexerL midInput) TokenColumn none).2.tokens.map Token.T =
      [TokenError] := by
  refine ⟨?_, ?_, ?_⟩ <;> decide

/-- Claim C10.  The hexadecimal-prefix check of `scanNumber` evaluates
the slice `l.input[l.pos:l.pos+2]` immediately after consuming the
optional sign; whenever fewer than two code points remain at that point
(as on the standalone inputs `0`, `5`, `+1`) the slice bound exceeds the
buffer length and Go panics instead of returning a classification. -/
theorem c10_scanNumber_short_input_panics :
    ∀ l : Lexer, ((l.accept ("+-")).2).remaining.length < 2 →
      scanNumber l = Except.error ("slice bounds out of range") := by
  intro l h
  unfold scanNumber
  rcases hacc : l.accept ("+-") with ⟨hs, l1⟩
  rw [hacc] at h
  simp only [hacc]
  rw [if_pos h]

/-- Witness for claim C10 at the one-byte input `0`. -/
theorem c10_witness :
    scanNumber (newLexer ("0")) = Except.error ("slice bounds out of range") :=
  c10_scanNumber_short_input_panics (newLexer ("0")) (by decide)

end QLParse
